import Mathlib

/-!
Verification development for the `goserver` room-synchronization engine.

The Go server keeps a process-wide registry `clients : map[*websocket.Conn][]*Room`
guarded by one mutex.  We embed it shallowly: connections are identified by
natural numbers, the map becomes an association list (Go map iteration order is
modelled by list order), and in-place mutation becomes pure state-passing.
Every definition below is translated from `src/ws/handlers.go` or the helper
file (`src/unnamed/part_000`); doc comments cite the Go function embedded.
-/

namespace GoServer

/-- `User` struct (handlers.go): per-replica member entry with round flags.
`gameID` is the struct field `GameID`; note the join path (`handleUserInfo`)
never sets it, so it stays `""` for users added there. -/
structure User where
  login : String
  sessionID : String
  gameID : String
  ready : Bool
  turn : Bool
  voted : Bool
  inGame : Bool
deriving Repr, DecidableEq

/-- `Room` struct (handlers.go): connection-local replica of a room. -/
structure Room where
  gameID : String
  started : Bool
  users : List User
deriving Repr, DecidableEq

/-- The registry `clients : map[*websocket.Conn][]*Room`; connections are
numbered, map iteration order is the list order. -/
structure ServerState where
  clients : List (Nat × List Room)
deriving Repr, DecidableEq

/-- Protobuf `game.User` submessage (login, session_id, game_id). -/
structure UserMsg where
  login : String
  sessionId : String
  gameId : String
deriving Repr, DecidableEq

/-- Decoded `game.Action` payload.  The nested `User` submessage is a pointer
in Go and may be nil after a successful unmarshal, hence `Option`. -/
structure ActionMsg where
  user : Option UserMsg
deriving Repr, DecidableEq

/-- Decoded `game.Ready` payload (`Status` events). -/
structure ReadyMsg where
  user : Option UserMsg
  status : Bool
deriving Repr, DecidableEq

/-- Decoded `game.ChatMessage` payload. -/
structure ChatMessageMsg where
  user : Option UserMsg
  message : String
deriving Repr, DecidableEq

/-- Decoded `game.Disconnect` payload. -/
structure DisconnectMsg where
  user : Option UserMsg
deriving Repr, DecidableEq

/-- Messages the server emits on websockets, identified by their content.
`status` carries the `game.Ready` rebroadcast, `start` the `game.Start`
round-start message, `deleteCards` the tag-only `game.DeleteCards`,
`userInfo` the synthetic disconnect rebroadcast, `chat` the chat rebroadcast,
`update` the `game.UpdateInfo` membership announcement. -/
inductive OutMsg where
  | action (u : UserMsg)
  | status (u : UserMsg) (st : Bool)
  | start (gameId text : String)
  | deleteCards (gameId : String)
  | userInfo (u : UserMsg) (connected : Bool)
  | chat (u : UserMsg) (message : String)
  | update (u : UserMsg)
deriving Repr, DecidableEq

/-- Result of running one handler: Go handlers either return normally (new
registry state plus the list of broadcast messages, plus whether `GetText`
was invoked) or hit a nil-pointer dereference (`panic`). -/
inductive HResult where
  | panic
  | ok (s : ServerState) (out : List OutMsg) (textFetched : Bool)
deriving Repr, DecidableEq

/-! ### Aggregate counts (src/unnamed/part_000) -/

/-- Per-room turn count: users with `Turn` set, in rooms matching the code. -/
def roomTurnCount (gid : String) (r : Room) : Nat :=
  if r.gameID = gid then (r.users.filter (fun u => u.turn)).length else 0

/-- `clientsMoved(gameID)`: total `Turn=true` users over all replicas of the code. -/
def clientsMoved (s : ServerState) (gid : String) : Nat :=
  (s.clients.map (fun cr => ((cr.2.map (roomTurnCount gid)).sum))).sum

/-- Per-room in-game count. -/
def roomInGameCount (gid : String) (r : Room) : Nat :=
  if r.gameID = gid then (r.users.filter (fun u => u.inGame)).length else 0

/-- `ClientsInGame(gameID)`: total `InGame=true` users over all replicas of the code. -/
def ClientsInGame (s : ServerState) (gid : String) : Nat :=
  (s.clients.map (fun cr => ((cr.2.map (roomInGameCount gid)).sum))).sum

/-- Per-room member count. -/
def roomMemberCount (gid : String) (r : Room) : Nat :=
  if r.gameID = gid then r.users.length else 0

/-- `ClientsInRoom(gameID)`: total member count over all replicas of the code. -/
def ClientsInRoom (s : ServerState) (gid : String) : Nat :=
  (s.clients.map (fun cr => ((cr.2.map (roomMemberCount gid)).sum))).sum

/-- Per-room ready count. -/
def roomReadyCount (gid : String) (r : Room) : Nat :=
  if r.gameID = gid then (r.users.filter (fun u => u.ready)).length else 0

/-- `clientsReady(gameID)`: total `Ready=true` users over all replicas of the code. -/
def clientsReady (s : ServerState) (gid : String) : Nat :=
  (s.clients.map (fun cr => ((cr.2.map (roomReadyCount gid)).sum))).sum

/-- Several Go loops have the shape `for _, rooms := range clients { for
_, room := range rooms { mutate room } }`; in the pure embedding they are a
map of a room transformer over the registry. -/
def mapRooms (f : Room → Room) (s : ServerState) : ServerState :=
  ⟨s.clients.map (fun cr => (cr.1, cr.2.map f))⟩

/-! ### External collaborator: `GetText` (src/unnamed/part_000) -/

/-- `TextResponse` struct: the decoded JSON body of `GET /text`. -/
structure TextResponse where
  text : String
deriving Repr, DecidableEq

/-- Outcome of the HTTP `GET /text` request as the Go code observes it:
either the request itself failed (network error / timeout), or a response
arrived with a status code and a body whose JSON decoding into
`TextResponse` either failed (`none`) or produced a value. -/
inductive HttpOutcome where
  | netError
  | response (statusCode : Nat) (body : Option TextResponse)
deriving Repr, DecidableEq

/-- `GetText`: returns the fetched text, or an error on network failure,
non-200 status, undecodable body, or empty `text` field — mirroring the
four early returns in the Go function. -/
def GetText (o : HttpOutcome) : Except String String :=
  match o with
  | .netError => .error "request failed"
  | .response code body =>
      if code ≠ 200 then .error ("status code: " ++ toString code)
      else
        match body with
        | none => .error "error unmarshaling JSON"
        | some data =>
            if data.text = "" then .error "no text received" else .ok data.text

/-! ### `handleAction` (handlers.go lines 124-182) -/

/-- Inner user loop of `handleAction`: scan the room's user list for the
session id; on the first match, either note that the user already acted
(`Turn == true`) or set `Turn`; `break` stops the scan, so later duplicates
are untouched.  Returns the updated list and the `userTurned` contribution. -/
def markTurnUsers (sid : String) : List User → List User × Bool
  | [] => ([], false)
  | u :: rest =>
      if u.sessionID = sid then
        if u.turn then (u :: rest, true)
        else ({ u with turn := true } :: rest, false)
      else
        let p := markTurnUsers sid rest
        (u :: p.1, p.2)

/-- Room step of the `handleAction` scan: only rooms whose `GameID` matches. -/
def markTurnRoom (gid sid : String) (r : Room) : Room × Bool :=
  if r.gameID = gid then
    let p := markTurnUsers sid r.users
    ({ r with users := p.1 }, p.2)
  else (r, false)

/-- Scan of one connection's replica list. -/
def markTurnRooms (gid sid : String) : List Room → List Room × Bool
  | [] => ([], false)
  | r :: rest =>
      let p := markTurnRoom gid sid r
      let q := markTurnRooms gid sid rest
      (p.1 :: q.1, p.2 || q.2)

/-- Scan of the whole registry (`for _, rooms := range clients`): the
mutations in every matching room happen and `userTurned` is the OR of the
per-room findings. -/
def markTurnClients (gid sid : String) : List (Nat × List Room) → List (Nat × List Room) × Bool
  | [] => ([], false)
  | cr :: rest =>
      let p := markTurnRooms gid sid cr.2
      let q := markTurnClients gid sid rest
      ((cr.1, p.1) :: q.1, p.2 || q.2)

/-- Post-`DeleteCards` loop of `handleAction`: for every matching room, the
body `room.started = false; user.Voted = false` runs once per user — so
`started` is cleared only when the room has at least one user, and `Turn`
is never touched. -/
def clearRoomAfterDelete (gid : String) (r : Room) : Room :=
  if r.gameID = gid then
    if r.users.isEmpty then r
    else { r with started := false
                , users := r.users.map (fun u => { u with voted := false }) }
  else r

/-- The same loop over the whole registry. -/
def clearAfterDelete (s : ServerState) (gid : String) : ServerState :=
  mapRooms (clearRoomAfterDelete gid) s

/-- `handleAction`: dereferences `action.User` (panics when nil), marks the
turn under the lock, returns early when the user had already acted,
otherwise rebroadcasts the action and, when `clientsMoved == ClientsInGame`,
sends `DeleteCards` and runs the clearing loop. -/
def handleAction (s : ServerState) (a : ActionMsg) : HResult :=
  match a.user with
  | none => .panic
  | some u =>
      let p := markTurnClients u.gameId u.sessionId s.clients
      let s1 : ServerState := ⟨p.1⟩
      if p.2 then .ok s1 [] false
      else
        if clientsMoved s1 u.gameId = ClientsInGame s1 u.gameId then
          .ok (clearAfterDelete s1 u.gameId) [.action u, .deleteCards u.gameId] false
        else
          .ok s1 [.action u] false

/-! ### `handleStatus` (handlers.go lines 184-244) -/

/-- Inner user loop of the ready toggle: flip `Ready` of the first matching
user and report the new value (the Go code writes it back into
`status.Status`); `break` stops the scan. -/
def toggleReadyUsers (sid : String) : List User → List User × Option Bool
  | [] => ([], none)
  | u :: rest =>
      if u.sessionID = sid then
        ({ u with ready := !u.ready } :: rest, some (!u.ready))
      else
        let p := toggleReadyUsers sid rest
        (u :: p.1, p.2)

/-- Room step of the toggle: only matching rooms that are not `started`. -/
def toggleReadyRoom (gid sid : String) (r : Room) : Room × Option Bool :=
  if r.gameID = gid && !r.started then
    let p := toggleReadyUsers sid r.users
    ({ r with users := p.1 }, p.2)
  else (r, none)

/-- Toggle over a replica list; since Go keeps assigning `status.Status`
inside the loop, the value from the last room that found the user wins. -/
def toggleReadyRooms (gid sid : String) : List Room → List Room × Option Bool
  | [] => ([], none)
  | r :: rest =>
      let p := toggleReadyRoom gid sid r
      let q := toggleReadyRooms gid sid rest
      (p.1 :: q.1, (q.2.orElse (fun _ => p.2)))

/-- Toggle over the whole registry. -/
def toggleReadyClients (gid sid : String) : List (Nat × List Room) → List (Nat × List Room) × Option Bool
  | [] => ([], none)
  | cr :: rest =>
      let p := toggleReadyRooms gid sid cr.2
      let q := toggleReadyClients gid sid rest
      ((cr.1, p.1) :: q.1, (q.2.orElse (fun _ => p.2)))

/-- `SendStartGameMessageAndMark` marks every user of a matching room as
`InGame` while fanning out the `Start` message. -/
def markInGameRoom (gid : String) (r : Room) : Room :=
  if r.gameID = gid then { r with users := r.users.map (fun u => { u with inGame := true }) }
  else r

/-- Registry-wide `InGame` marking. -/
def markInGame (s : ServerState) (gid : String) : ServerState :=
  mapRooms (markInGameRoom gid) s

/-- Round-start reset loop of `handleStatus`: for every matching room the
body `user.Ready = false; user.Turn = false; room.started = true` runs once
per user, so `started` flips to true only in rooms with at least one user. -/
def resetRoomAfterStart (gid : String) (r : Room) : Room :=
  if r.gameID = gid then
    if r.users.isEmpty then r
    else { r with started := true
                , users := r.users.map (fun u => { u with ready := false, turn := false }) }
  else r

/-- Registry-wide round-start reset. -/
def resetAfterStart (s : ServerState) (gid : String) : ServerState :=
  mapRooms (resetRoomAfterStart gid) s

/-- True when some matching room has a user: exactly when the Go reset loop
executes `status.Status = false` at least once. -/
def anyMatchingNonempty (s : ServerState) (gid : String) : Bool :=
  s.clients.any (fun cr => cr.2.any (fun r => r.gameID = gid && !r.users.isEmpty))

/-- `handleStatus`: toggle ready under the lock, count members and ready
users, rebroadcast the (mutated) status, and when `readyUsers == users`
fetch the prompt text; on fetch error return without further changes, else
broadcast `Start` (which marks `InGame`), run the reset loop and rebroadcast
the final status. -/
def handleStatus (s : ServerState) (m : ReadyMsg) (fetch : HttpOutcome) : HResult :=
  match m.user with
  | none => .panic
  | some u =>
      let p := toggleReadyClients u.gameId u.sessionId s.clients
      let s1 : ServerState := ⟨p.1⟩
      let newStatus := p.2.getD m.status
      let out1 : List OutMsg := [.status u newStatus]
      if clientsReady s1 u.gameId = ClientsInRoom s1 u.gameId then
        match GetText fetch with
        | .error _ => .ok s1 out1 true
        | .ok text =>
            let s2 := markInGame s1 u.gameId
            let s3 := resetAfterStart s2 u.gameId
            let finalStatus := if anyMatchingNonempty s2 u.gameId then false else newStatus
            .ok s3 (out1 ++ [.start u.gameId text, .status u finalStatus]) true
      else .ok s1 out1 false

/-! ### `handleChatMessage` / `sendChatMessage` (handlers.go lines 60-69, 537-576) -/

/-- `handleChatMessage`: after a successful unmarshal the Go code reads
`chatMsg.User.Login` — a nil `User` submessage panics.  Otherwise
`sendChatMessage` rebroadcasts a `ChatMessage` whose `SessionId` field is
the sender connection's remote address while login, game id and text are
forwarded unchanged.  The registry is not mutated. -/
def handleChatMessage (s : ServerState) (remoteAddr : String) (m : ChatMessageMsg) : HResult :=
  match m.user with
  | none => .panic
  | some u =>
      .ok s [.chat { login := u.login, sessionId := remoteAddr, gameId := u.gameId } m.message] false

/-! ### Disconnect path (handlers.go lines 309-336, part_000 lines 218-359) -/

/-- Inner removal of `disconnectUser`: delete the first user with the
session id from a user list; the flag reports whether one was found. -/
def removeFirstUser (sid : String) : List User → List User × Bool
  | [] => ([], false)
  | u :: rest =>
      if u.sessionID = sid then (rest, true)
      else
        let p := removeFirstUser sid rest
        (u :: p.1, p.2)

/-- `disconnectUser` over one connection's rooms: the Go loop breaks out of
every level once a user was removed, so only the first room containing the
session id is touched. -/
def removeFirstRooms (sid : String) : List Room → List Room × Bool
  | [] => ([], false)
  | r :: rest =>
      let p := removeFirstUser sid r.users
      if p.2 then ({ r with users := p.1 } :: rest, true)
      else
        let q := removeFirstRooms sid rest
        (r :: q.1, q.2)

/-- `disconnectUser` over the registry: stops after the first removal.
(The Go code also closes that connection's socket; socket I/O is outside
the replica state.) -/
def disconnectUser (sid : String) : List (Nat × List Room) → List (Nat × List Room)
  | [] => []
  | cr :: rest =>
      let p := removeFirstRooms sid cr.2
      if p.2 then (cr.1, p.1) :: rest
      else cr :: disconnectUser sid rest

/-- all-moved clearing loop of `updateGame`: `user.Turn = false;
user.Voted = false` for every user of a matching room — `room.started`
is not assigned here. -/
def clearTurnVotedRoom (gid : String) (r : Room) : Room :=
  if r.gameID = gid then
    { r with users := r.users.map (fun u => { u with turn := false, voted := false }) }
  else r

/-- Registry-wide all-moved clearing of `updateGame`. -/
def clearTurnVoted (s : ServerState) (gid : String) : ServerState :=
  mapRooms (clearTurnVotedRoom gid) s

/-- Ready-reset loop of `updateGame`: `user.Ready = false` plus a
`sendUserStatus` broadcast per user — neither `Turn` nor `room.started`
is assigned. -/
def resetReadyRoom (gid : String) (r : Room) : Room :=
  if r.gameID = gid then
    { r with users := r.users.map (fun u => { u with ready := false }) }
  else r

/-- Registry-wide ready reset of `updateGame`. -/
def resetReady (s : ServerState) (gid : String) : ServerState :=
  mapRooms (resetReadyRoom gid) s

/-- The per-user `sendUserStatus` messages emitted by `updateGame`'s ready
branch: a `Ready{Status:false}` for each user of each matching room, built
from the user's `SessionID` and stored `GameID` field (login empty). -/
def userStatusMsgs (s : ServerState) (gid : String) : List OutMsg :=
  s.clients.foldr
    (fun cr acc =>
      cr.2.foldr
        (fun r acc2 =>
          if r.gameID = gid then
            r.users.map (fun u =>
              OutMsg.status { login := "", sessionId := u.sessionID, gameId := u.gameID } false) ++ acc2
          else acc2)
        acc)
    []

/-- First half of `updateGame`: the all-moved re-check (`DeleteCards`
broadcast plus turn/voted clearing when the counts agree). -/
def updateGameDeleteStep (s : ServerState) (gid : String) : ServerState × List OutMsg :=
  if ClientsInGame s gid = clientsMoved s gid then
    (clearTurnVoted s gid, [OutMsg.deleteCards gid])
  else (s, [])

/-- `updateGame` (part_000 lines 320-359): re-evaluate both aggregate
conditions after a disconnect.  All-moved branch: `DeleteCards` broadcast
and turn/voted clearing (no `started` change).  All-ready branch: fetch
text (abort on error), broadcast `Start` (marking `InGame`), then reset
`Ready` emitting one status per user (no `Turn`, no `started` change).
Returns new state, emitted messages, and whether `GetText` was invoked. -/
def updateGame (s : ServerState) (gid : String) (fetch : HttpOutcome) : ServerState × List OutMsg × Bool :=
  let step1 := updateGameDeleteStep s gid
  let s1 := step1.1
  if ClientsInRoom s1 gid = clientsReady s1 gid then
    match GetText fetch with
    | .error _ => (s1, step1.2, true)
    | .ok text =>
        let s2 := markInGame s1 gid
        (resetReady s2 gid, step1.2 ++ [OutMsg.start gid text] ++ userStatusMsgs s2 gid, true)
  else (s1, step1.2, false)

/-- `handleDisconnect`: dereferences `disconnect.User` (panics when nil),
removes the user from the registry (`disconnectUser`), notifies the
external service (no replica effect), broadcasts the synthetic
`UserInfo{Connected:false}`, then runs `updateGame`. -/
def handleDisconnect (s : ServerState) (m : DisconnectMsg) (fetch : HttpOutcome) : HResult :=
  match m.user with
  | none => .panic
  | some u =>
      let s1 : ServerState := ⟨disconnectUser u.sessionId s.clients⟩
      let r := updateGame s1 u.gameId fetch
      .ok r.1 (OutMsg.userInfo u false :: r.2.1) r.2.2

/-! ### Unicast and broadcast primitives (handlers.go lines 659-723) -/

/-- `sendUpdateInfoToClient`: walk the registry in iteration order and
deliver the `GameInfo` message to the first connection owning a user whose
`SessionID` equals the destination id; when none is found the function
logs and returns `nil`.  Result: the delivered connection (if any) and the
returned error, which is `nil` on both paths. -/
def findConnWithSession (destId : String) : List (Nat × List Room) → Option Nat
  | [] => none
  | cr :: rest =>
      if cr.2.any (fun r => r.users.any (fun u => u.sessionID = destId)) then some cr.1
      else findConnWithSession destId rest

/-- The pair returned to the caller: delivered connection and error value. -/
def sendUpdateInfoToClient (s : ServerState) (destId : String) : Option Nat × Option String :=
  (findConnWithSession destId s.clients, none)

/-- Fold collecting one write target per `(connection, room)` pair whose
room matches the game code. -/
def targetsFold (gid : String) : List (Nat × List Room) → List Nat
  | [] => []
  | cr :: rest => (cr.2.filter (fun r => r.gameID = gid)).map (fun _ => cr.1) ++ targetsFold gid rest

/-- Targets of `SendMessageToGameClients`: one write per `(connection,
room)` pair whose room matches the game code (the sender argument is not
used for exclusion in the Go code). -/
def gameTargets (s : ServerState) (gid : String) : List Nat :=
  targetsFold gid s.clients

/-- `SendMessageToGameClients`: fan the message out to every target and
wait for all writes; each write's success is independent (`writeOk`), a
failed write is only logged, and the function always returns `nil`. -/
def SendMessageToGameClients (s : ServerState) (gid : String) (writeOk : Nat → Bool) :
    List (Nat × Bool) × Option String :=
  ((gameTargets s gid).map (fun c => (c, writeOk c)), none)

/-! ### Lock/IO event traces (handlers.go)

To check the locking discipline we project each function onto its sequence
of registry-lock and I/O events, in source order.  `Ev.lock`/`Ev.unlock`
are `mu.Lock()`/`mu.Unlock()`, `Ev.sockWrite` is one websocket write,
`Ev.extCall` one HTTP call to the external collaborator. -/

inductive Ev where
  | lock
  | unlock
  | sockWrite
  | extCall
deriving Repr, DecidableEq

/-- `ioUnderLock d t`: scanning trace `t` starting at lock depth `d`, does
some socket write or external call happen while the lock is held? -/
def ioUnderLock : Nat → List Ev → Bool
  | _, [] => false
  | d, .lock :: t => ioUnderLock (d + 1) t
  | d, .unlock :: t => ioUnderLock (d - 1) t
  | d, .sockWrite :: t => decide (0 < d) || ioUnderLock d t
  | d, .extCall :: t => decide (0 < d) || ioUnderLock d t

/-- Trace of `SendMessageToGameClients` fanning out to `n` targets: no
locking at all. -/
def sendMessageToGameClientsTrace (n : Nat) : List Ev :=
  List.replicate n .sockWrite

/-- Trace of `SendStartGameMessageAndMark` (lines 415-445): `mu.Lock()`
with `defer mu.Unlock()`, the `n` fan-out writes are spawned and
`wg.Wait()` completes while the lock is still held. -/
def sendStartGameMessageAndMarkTrace (n : Nat) : List Ev :=
  .lock :: List.replicate n .sockWrite ++ [.unlock]

/-- Trace of `SendDeleteMessage` (lines 447-484): fan-out without the lock. -/
def sendDeleteMessageTrace (n : Nat) : List Ev :=
  List.replicate n .sockWrite

/-- Trace of `handleUserInfo` (lines 71-122): `mu.Lock()` with
`defer mu.Unlock()`; in the leave branch `deleteUser` performs an HTTP
call; then `SendUserInfoToGameClients` (`n` writes) and
`SendUpdateMessage` (`m` writes) both run before the deferred unlock. -/
def handleUserInfoTrace (leave : Bool) (n m : Nat) : List Ev :=
  .lock :: ((if leave then [Ev.extCall] else []) ++
    List.replicate n .sockWrite ++ List.replicate m .sockWrite ++ [.unlock])

/-- Trace of `handleAction` (lines 124-182): the turn marking is locked and
released, the rebroadcast (`n` writes) runs unlocked; when the transition
fires, each aggregate count takes the lock, `SendDeleteMessage` writes
unlocked (`k` writes) and the clearing loop takes the lock again. -/
def handleActionTrace (turned : Bool) (transition : Bool) (n k : Nat) : List Ev :=
  [.lock, .unlock] ++
    (if turned then []
     else List.replicate n .sockWrite ++ [.lock, .unlock, .lock, .unlock] ++
       (if transition then sendDeleteMessageTrace k ++ [.lock, .unlock] else []))

/-- Trace of `handleChoose` (lines 246-291): `mu.Lock()` with
`defer mu.Unlock()`; when the vote is fresh, `sendChosenID` fans out `n`
writes before the deferred unlock. -/
def handleChooseTrace (alreadyVoted : Bool) (n : Nat) : List Ev :=
  .lock :: ((if alreadyVoted then [] else List.replicate n .sockWrite) ++ [.unlock])

/-- Trace of `sendChatMessage` (lines 537-576): the fan-out writes happen
inside the `mu.Lock()` / `mu.Unlock()` pair. -/
def sendChatMessageTrace (n : Nat) : List Ev :=
  .lock :: List.replicate n .sockWrite ++ [.unlock]

/-- Trace of `sendUpdateInfoToClient` (lines 659-701): `mu.Lock()` with
`defer mu.Unlock()`; the unicast write (when the destination is found)
happens before the deferred unlock. -/
def sendUpdateInfoToClientTrace (found : Bool) : List Ev :=
  .lock :: ((if found then [Ev.sockWrite] else []) ++ [.unlock])

/-! ## Theorems -/

/-- C2: a well-formed envelope whose `ChatMessage` payload decodes with an
absent (nil) nested `User` submessage makes `handleChatMessage` dereference
a nil pointer: processing panics instead of dropping the message, for every
registry state, remote address and chat text. -/
theorem handleChatMessage_nil_user_panics (s : ServerState) (ra txt : String) :
    handleChatMessage s ra { user := none, message := txt } = .panic := rfl

/-- C10: the chat rebroadcast replaces the inbound session id with the
sender connection's remote network address, while login, game code and
message text are forwarded unchanged, and the registry is not mutated. -/
theorem chat_rebroadcast_uses_remote_addr (s : ServerState) (ra : String)
    (m : ChatMessageMsg) (u : UserMsg) (hu : m.user = some u) :
    handleChatMessage s ra m =
      .ok s [.chat { login := u.login, sessionId := ra, gameId := u.gameId } m.message] false := by
  simp [handleChatMessage, hu]

/-- Witness for C10 at a concrete message: the outbound session id is the
remote address `"10.0.0.9:4242"`, everything else is copied. -/
theorem chat_rebroadcast_uses_remote_addr_witness :
    handleChatMessage ⟨[]⟩ "10.0.0.9:4242"
        { user := some { login := "ann", sessionId := "sess-1", gameId := "g" }, message := "hi" } =
      .ok ⟨[]⟩ [.chat { login := "ann", sessionId := "10.0.0.9:4242", gameId := "g" } "hi"] false :=
  chat_rebroadcast_uses_remote_addr ⟨[]⟩ "10.0.0.9:4242" _ _ rfl

/-- A connection entry holds a user with the given session id. -/
def entryHasSession (d : String) (cr : Nat × List Room) : Bool :=
  cr.2.any (fun r => r.users.any (fun u => u.sessionID = d))

lemma entryHasSession_iff (d : String) (cr : Nat × List Room) :
    entryHasSession d cr = true ↔ ∃ r ∈ cr.2, ∃ x ∈ r.users, x.sessionID = d := by
  simp [entryHasSession, List.any_eq_true]

lemma entryHasSession_false_iff (d : String) (cr : Nat × List Room) :
    entryHasSession d cr = false ↔ ∀ r ∈ cr.2, ∀ x ∈ r.users, x.sessionID ≠ d := by
  rw [← Bool.not_eq_true, entryHasSession_iff]
  push_neg
  rfl

lemma findConnWithSession_eq_none (d : String) :
    ∀ cls : List (Nat × List Room),
      (findConnWithSession d cls = none ↔ ∀ cr ∈ cls, entryHasSession d cr = false)
  | [] => by simp [findConnWithSession]
  | cr :: rest => by
      by_cases h : entryHasSession d cr = true
      · simp only [findConnWithSession, entryHasSession] at h ⊢
        rw [if_pos h]
        simp only [List.mem_cons]
        constructor
        · intro hnone; cases hnone
        · intro hall
          have := hall cr (Or.inl rfl)
          rw [h] at this; cases this
      · have h' : entryHasSession d cr = false := by
          cases hb : entryHasSession d cr
          · rfl
          · exact absurd hb h
        simp only [findConnWithSession, entryHasSession] at h' ⊢
        rw [if_neg (by rw [h']; exact Bool.false_ne_true)]
        rw [findConnWithSession_eq_none d rest]
        simp only [List.mem_cons]
        constructor
        · intro hall cr' hcr'
          rcases hcr' with hceq | hcmem
          · subst hceq; exact h'
          · exact hall cr' hcmem
        · intro hall cr' hcmem
          exact hall cr' (Or.inr hcmem)

lemma findConnWithSession_eq_some (d : String) (c : Nat) :
    ∀ cls : List (Nat × List Room),
      findConnWithSession d cls = some c →
        ∃ cr ∈ cls, cr.1 = c ∧ entryHasSession d cr = true
  | [] => by intro hc; cases hc
  | cr :: rest => by
      intro hc
      by_cases h : entryHasSession d cr = true
      · refine ⟨cr, List.mem_cons_self _ _, ?_, h⟩
        simp only [findConnWithSession, entryHasSession] at h hc
        rw [if_pos h] at hc
        exact (Option.some.injEq _ _ ▸ hc).symm ▸ rfl
      · have h' : entryHasSession d cr = false := by
          cases hb : entryHasSession d cr
          · rfl
          · exact absurd hb h
        simp only [findConnWithSession, entryHasSession] at h' hc
        rw [if_neg (by rw [h']; exact Bool.false_ne_true)] at hc
        obtain ⟨cr', hcr', hc', hs⟩ := findConnWithSession_eq_some d c rest hc
        exact ⟨cr', List.mem_cons_of_mem _ hcr', hc', hs⟩

/-- C6: `GameInfo` delivery is point-to-point: the returned error is always
`nil`; nothing is delivered exactly when no replica anywhere contains the
destination session id (silent drop); and when a connection is chosen it is
one that owns a user with that session id. -/
theorem gameinfo_unicast (s : ServerState) (d : String) :
    (sendUpdateInfoToClient s d).2 = none ∧
    ((sendUpdateInfoToClient s d).1 = none ↔
      ∀ cr ∈ s.clients, ∀ r ∈ cr.2, ∀ x ∈ r.users, x.sessionID ≠ d) ∧
    (∀ c, (sendUpdateInfoToClient s d).1 = some c →
      ∃ cr ∈ s.clients, cr.1 = c ∧ ∃ r ∈ cr.2, ∃ x ∈ r.users, x.sessionID = d) := by
  refine ⟨rfl, ?_, ?_⟩
  · rw [show (sendUpdateInfoToClient s d).1 = findConnWithSession d s.clients from rfl,
      findConnWithSession_eq_none]
    constructor
    · intro hall cr hcr
      exact (entryHasSession_false_iff d cr).mp (hall cr hcr)
    · intro hall cr hcr
      exact (entryHasSession_false_iff d cr).mpr (hall cr hcr)
  · intro c hc
    obtain ⟨cr, hcr, hc', hs⟩ :=
      findConnWithSession_eq_some d c s.clients hc
    obtain ⟨r, hr, x, hx, hxd⟩ := (entryHasSession_iff d cr).mp hs
    exact ⟨cr, hcr, hc', r, hr, x, hx, hxd⟩

/-- Witness for C6 at a concrete registry: connection 7 owns session `"s2"`,
so the `GameInfo` is delivered to connection 7 and that connection holds a
matching user; the error is `nil`. -/
theorem gameinfo_unicast_witness :
    ∃ cr ∈ (ServerState.mk [(3, [⟨"g", false, [⟨"a", "s1", "", false, false, false, false⟩]⟩]),
                            (7, [⟨"g", false, [⟨"b", "s2", "", false, false, false, false⟩]⟩])]).clients,
      cr.1 = 7 ∧ ∃ r ∈ cr.2, ∃ x ∈ r.users, x.sessionID = "s2" :=
  (gameinfo_unicast ⟨[(3, [⟨"g", false, [⟨"a", "s1", "", false, false, false, false⟩]⟩]),
                      (7, [⟨"g", false, [⟨"b", "s2", "", false, false, false, false⟩]⟩])]⟩ "s2").2.2
    7 (by decide)

lemma mem_targetsFold (gid : String) (c : Nat) :
    ∀ cls : List (Nat × List Room),
      (c ∈ targetsFold gid cls ↔ ∃ cr ∈ cls, cr.1 = c ∧ ∃ r ∈ cr.2, r.gameID = gid)
  | [] => by simp [targetsFold]
  | cr :: rest => by
      simp only [targetsFold, List.mem_append]
      constructor
      · intro hmem
        rcases hmem with hhd | htl
        · simp only [List.mem_map] at hhd
          obtain ⟨r, hr, hc⟩ := hhd
          exact ⟨cr, List.mem_cons_self _ _, hc, r, (List.mem_filter.mp hr).1,
            of_decide_eq_true (List.mem_filter.mp hr).2⟩
        · obtain ⟨cr', hcr', hc, r, hr, hg⟩ := (mem_targetsFold gid c rest).mp htl
          exact ⟨cr', List.mem_cons_of_mem _ hcr', hc, r, hr, hg⟩
      · rintro ⟨cr', hcr', hc, r, hr, hg⟩
        rcases List.mem_cons.mp hcr' with hceq | hcmem
        · subst hceq
          left
          simp only [List.mem_map]
          exact ⟨r, List.mem_filter.mpr ⟨hr, decide_eq_true hg⟩, hc⟩
        · exact Or.inr ((mem_targetsFold gid c rest).mpr ⟨cr', hcmem, hc, r, hr, hg⟩)

/-- C7: the broadcast writes to every connection holding a replica with the
game code, records a completed attempt for each of them before returning
(one entry per matching `(connection, room)` pair), keeps each write's
outcome independent of the other connections' failures, and always returns
a `nil` error to the caller. -/
theorem broadcast_partial_failure_isolation (s : ServerState) (gid : String) (writeOk : Nat → Bool) :
    (SendMessageToGameClients s gid writeOk).2 = none ∧
    (∀ c, c ∈ gameTargets s gid ↔ ∃ cr ∈ s.clients, cr.1 = c ∧ ∃ r ∈ cr.2, r.gameID = gid) ∧
    (∀ c, c ∈ gameTargets s gid → (c, writeOk c) ∈ (SendMessageToGameClients s gid writeOk).1) ∧
    (SendMessageToGameClients s gid writeOk).1.length = (gameTargets s gid).length := by
  refine ⟨rfl, ?_, ?_, by simp [SendMessageToGameClients]⟩
  · intro c
    show c ∈ targetsFold gid s.clients ↔ _
    exact mem_targetsFold gid c s.clients
  · intro c hc
    simp only [SendMessageToGameClients, List.mem_map]
    exact ⟨c, hc, rfl⟩

/-- Witness for C7: a room of three connections where the write to
connection 1 fails; the other two writes are still attempted and succeed,
and the call reports no error. -/
theorem broadcast_partial_failure_isolation_witness :
    ((0, true) ∈ (SendMessageToGameClients
        ⟨[(0, [⟨"g", true, []⟩]), (1, [⟨"g", true, []⟩]), (2, [⟨"g", true, []⟩])]⟩
        "g" (fun c => c ≠ 1)).1) ∧
    ((1, false) ∈ (SendMessageToGameClients
        ⟨[(0, [⟨"g", true, []⟩]), (1, [⟨"g", true, []⟩]), (2, [⟨"g", true, []⟩])]⟩
        "g" (fun c => c ≠ 1)).1) ∧
    ((2, true) ∈ (SendMessageToGameClients
        ⟨[(0, [⟨"g", true, []⟩]), (1, [⟨"g", true, []⟩]), (2, [⟨"g", true, []⟩])]⟩
        "g" (fun c => c ≠ 1)).1) ∧
    (SendMessageToGameClients
        ⟨[(0, [⟨"g", true, []⟩]), (1, [⟨"g", true, []⟩]), (2, [⟨"g", true, []⟩])]⟩
        "g" (fun c => c ≠ 1)).2 = none := by
  have h := broadcast_partial_failure_isolation
    ⟨[(0, [⟨"g", true, []⟩]), (1, [⟨"g", true, []⟩]), (2, [⟨"g", true, []⟩])]⟩
    "g" (fun c => c ≠ 1)
  exact ⟨by simpa using h.2.2.1 0 (by decide), by simpa using h.2.2.1 1 (by decide),
         by simpa using h.2.2.1 2 (by decide), h.1⟩

lemma ioUnderLock_writes_append (d n : Nat) (t : List Ev) :
    ioUnderLock d (List.replicate n .sockWrite ++ t) =
      ((decide (0 < d) && decide (0 < n)) || ioUnderLock d t) := by
  induction n with
  | zero => simp [List.replicate]
  | succ k ih =>
      rw [List.replicate_succ, List.cons_append]
      show (decide (0 < d) || ioUnderLock d (List.replicate k .sockWrite ++ t)) = _
      rw [ih]
      by_cases hd : 0 < d
      · simp [hd]
      · simp [hd]

/-- C8 counterexample: the claim "the registry lock is never held across a
broadcast" fails on concrete inputs — in `handleUserInfo` with one room
member both rebroadcast writes happen between `mu.Lock()` and the deferred
`mu.Unlock()`, and in `SendStartGameMessageAndMark` the fan-out write (and
the `wg.Wait()` for it) happens while the lock is held. -/
theorem lock_held_across_broadcast_cex :
    ioUnderLock 0 (handleUserInfoTrace false 1 1) = true ∧
    ioUnderLock 0 (sendStartGameMessageAndMarkTrace 1) = true := by decide

/-- C8 amended: the discipline holds for the Action path (counts taken and
released before every fan-out), but `SendStartGameMessageAndMark`,
`handleUserInfo` (which also performs the `deleteUser` HTTP call under the
lock in the leave branch), `handleChoose`, the chat rebroadcast and the
`GameInfo` unicast all hold the registry lock across socket writes. -/
theorem lock_discipline_amended :
    (∀ (turned transition : Bool) (n k : Nat),
        ioUnderLock 0 (handleActionTrace turned transition n k) = false) ∧
    (∀ n, 0 < n → ioUnderLock 0 (sendStartGameMessageAndMarkTrace n) = true) ∧
    (∀ (leave : Bool) (n m : Nat), ioUnderLock 0 (handleUserInfoTrace leave (n + 1) m) = true) ∧
    (∀ n, ioUnderLock 0 (handleChooseTrace false (n + 1)) = true) ∧
    (∀ n, ioUnderLock 0 (sendChatMessageTrace (n + 1)) = true) ∧
    ioUnderLock 0 (sendUpdateInfoToClientTrace true) = true := by
  refine ⟨?_, ?_, ?_, ?_, ?_, by decide⟩
  · intro turned transition n k
    cases turned <;> cases transition <;>
      simp [handleActionTrace, sendDeleteMessageTrace, ioUnderLock, ioUnderLock_writes_append]
  · intro n hn
    simp [sendStartGameMessageAndMarkTrace, ioUnderLock, ioUnderLock_writes_append, hn]
  · intro leave n m
    cases leave <;>
      simp [handleUserInfoTrace, ioUnderLock, ioUnderLock_writes_append]
  · intro n
    simp [handleChooseTrace, ioUnderLock, ioUnderLock_writes_append]
  · intro n
    simp [sendChatMessageTrace, ioUnderLock, ioUnderLock_writes_append]

/-- Witness for C8's amended theorem: the Start fan-out to three members
holds the lock across I/O, while an Action that fires the round-clearing
transition (two rebroadcast writes, two delete writes) never does. -/
theorem lock_discipline_amended_witness :
    ioUnderLock 0 (sendStartGameMessageAndMarkTrace 3) = true ∧
    ioUnderLock 0 (handleActionTrace false true 2 2) = false :=
  ⟨lock_discipline_amended.2.1 3 (by decide),
   lock_discipline_amended.1 false true 2 2⟩

/-! ### Projections used to state "this part of the state is unchanged" -/

/-- Game code and `started` flag of every replica, per connection. -/
def startedView (s : ServerState) : List (Nat × List (String × Bool)) :=
  s.clients.map (fun cr => (cr.1, cr.2.map (fun r => (r.gameID, r.started))))

/-- Game code and the `turn` flags of every replica's users, per connection. -/
def turnView (s : ServerState) : List (Nat × List (String × List Bool)) :=
  s.clients.map (fun cr => (cr.1, cr.2.map (fun r => (r.gameID, r.users.map (fun x => x.turn)))))

/-! ### Preservation lemmas for the ready toggle -/

lemma toggleReadyUsers_turnMap (sid : String) :
    ∀ us : List User, (toggleReadyUsers sid us).1.map (fun x => x.turn) = us.map (fun x => x.turn)
  | [] => rfl
  | u :: rest => by
      unfold toggleReadyUsers
      by_cases h : u.sessionID = sid
      · simp [h]
      · simp [h, toggleReadyUsers_turnMap sid rest]

lemma toggleReadyUsers_length (sid : String) :
    ∀ us : List User, (toggleReadyUsers sid us).1.length = us.length
  | [] => rfl
  | u :: rest => by
      unfold toggleReadyUsers
      by_cases h : u.sessionID = sid
      · simp [h]
      · simp [h, toggleReadyUsers_length sid rest]

lemma toggleReadyRoom_shape (gid sid : String) (r : Room) :
    (toggleReadyRoom gid sid r).1.gameID = r.gameID ∧
    (toggleReadyRoom gid sid r).1.started = r.started ∧
    (toggleReadyRoom gid sid r).1.users.map (fun x => x.turn) = r.users.map (fun x => x.turn) ∧
    (toggleReadyRoom gid sid r).1.users.length = r.users.length := by
  unfold toggleReadyRoom
  split
  · exact ⟨rfl, rfl, toggleReadyUsers_turnMap sid r.users, toggleReadyUsers_length sid r.users⟩
  · exact ⟨rfl, rfl, rfl, rfl⟩

lemma toggleReadyRoom_memberCount (gid sid gid' : String) (r : Room) :
    roomMemberCount gid' (toggleReadyRoom gid sid r).1 = roomMemberCount gid' r := by
  obtain ⟨hg, _, _, hl⟩ := toggleReadyRoom_shape gid sid r
  unfold roomMemberCount
  rw [hg, hl]

lemma toggleReadyRooms_shape (gid sid : String) :
    ∀ rs : List Room,
      (toggleReadyRooms gid sid rs).1.map (fun r => (r.gameID, r.started)) =
        rs.map (fun r => (r.gameID, r.started)) ∧
      (toggleReadyRooms gid sid rs).1.map (fun r => (r.gameID, r.users.map (fun x => x.turn))) =
        rs.map (fun r => (r.gameID, r.users.map (fun x => x.turn))) ∧
      ∀ gid', ((toggleReadyRooms gid sid rs).1.map (roomMemberCount gid')).sum =
        (rs.map (roomMemberCount gid')).sum
  | [] => ⟨rfl, rfl, fun _ => rfl⟩
  | r :: rest => by
      obtain ⟨h1, h2, h3⟩ := toggleReadyRooms_shape gid sid rest
      obtain ⟨hg, hs, ht, _⟩ := toggleReadyRoom_shape gid sid r
      refine ⟨?_, ?_, ?_⟩
      · simp only [toggleReadyRooms, List.map_cons, h1, hg, hs]
      · simp only [toggleReadyRooms, List.map_cons, h2, hg, ht]
      · intro gid'
        simp only [toggleReadyRooms, List.map_cons, List.sum_cons, h3 gid',
          toggleReadyRoom_memberCount gid sid gid' r]

lemma toggleReadyClients_shape (gid sid : String) :
    ∀ cls : List (Nat × List Room),
      turnView ⟨(toggleReadyClients gid sid cls).1⟩ = turnView ⟨cls⟩ ∧
      startedView ⟨(toggleReadyClients gid sid cls).1⟩ = startedView ⟨cls⟩ ∧
      ∀ gid', ClientsInRoom ⟨(toggleReadyClients gid sid cls).1⟩ gid' = ClientsInRoom ⟨cls⟩ gid'
  | [] => ⟨rfl, rfl, fun _ => rfl⟩
  | cr :: rest => by
      obtain ⟨h1, h2, h3⟩ := toggleReadyClients_shape gid sid rest
      obtain ⟨g1, g2, g3⟩ := toggleReadyRooms_shape gid sid cr.2
      simp only [turnView] at h1
      simp only [startedView] at h2
      refine ⟨?_, ?_, ?_⟩
      · simp only [turnView, toggleReadyClients, List.map_cons, g2, h1]
      · simp only [startedView, toggleReadyClients, List.map_cons, g1, h2]
      · intro gid'
        have h3' := h3 gid'
        simp only [ClientsInRoom] at h3'
        simp only [ClientsInRoom, toggleReadyClients, List.map_cons, List.sum_cons, g3 gid', h3']

lemma roomReadyCount_le_memberCount (gid : String) (r : Room) :
    roomReadyCount gid r ≤ roomMemberCount gid r := by
  unfold roomReadyCount roomMemberCount
  by_cases h : r.gameID = gid
  · simp only [h, if_true]
    exact List.length_filter_le _ _
  · simp [h]

lemma clientsReady_le_ClientsInRoom (s : ServerState) (gid : String) :
    clientsReady s gid ≤ ClientsInRoom s gid := by
  unfold clientsReady ClientsInRoom
  refine List.sum_le_sum ?_
  intro cr _
  refine List.sum_le_sum ?_
  intro r _
  exact roomReadyCount_le_memberCount gid r

/-- C5: `GetText` fails with an error on network failure, non-200 status or
empty text (never silently returning an empty prompt), and when it fails
the round-start transition aborts: `handleStatus` returns the post-toggle
state with only the status rebroadcast — no `Start` message — and the
`turn` flags and `started` flags are exactly those of the incoming state. -/
theorem getText_failure_aborts (s : ServerState) (m : ReadyMsg) (u : UserMsg) (o : HttpOutcome)
    (hu : m.user = some u)
    (ho : o = .netError ∨ (∃ c b, o = .response c b ∧ c ≠ 200) ∨ ∃ c, o = .response c (some ⟨""⟩)) :
    (∃ e, GetText o = Except.error e) ∧
    (∃ f, handleStatus s m o =
        .ok ⟨(toggleReadyClients u.gameId u.sessionId s.clients).1⟩
          [.status u ((toggleReadyClients u.gameId u.sessionId s.clients).2.getD m.status)] f) ∧
    turnView ⟨(toggleReadyClients u.gameId u.sessionId s.clients).1⟩ = turnView s ∧
    startedView ⟨(toggleReadyClients u.gameId u.sessionId s.clients).1⟩ = startedView s := by
  have herr : ∃ e, GetText o = Except.error e := by
    rcases ho with rfl | ⟨c, b, rfl, hc⟩ | ⟨c, rfl⟩
    · exact ⟨"request failed", rfl⟩
    · exact ⟨"status code: " ++ toString c, by simp [GetText, hc]⟩
    · by_cases hc : c = 200
      · subst hc
        exact ⟨"no text received", by simp [GetText]⟩
      · exact ⟨"status code: " ++ toString c, by simp [GetText, hc]⟩
  obtain ⟨e, he⟩ := herr
  refine ⟨⟨e, he⟩, ?_, (toggleReadyClients_shape u.gameId u.sessionId s.clients).1,
    (toggleReadyClients_shape u.gameId u.sessionId s.clients).2.1⟩
  by_cases hcond : clientsReady ⟨(toggleReadyClients u.gameId u.sessionId s.clients).1⟩ u.gameId
      = ClientsInRoom ⟨(toggleReadyClients u.gameId u.sessionId s.clients).1⟩ u.gameId
  · exact ⟨true, by simp [handleStatus, hu, hcond, he]⟩
  · exact ⟨false, by simp [handleStatus, hu, hcond, he]⟩

/-- Witness for C5: a network failure makes `GetText` error, and a status
event for a ready room aborts without a `Start` broadcast. -/
theorem getText_failure_aborts_witness :
    (∃ e, GetText .netError = Except.error e) ∧
    ∃ f, handleStatus
        ⟨[(0, [⟨"g", false, [⟨"ann", "s1", "", true, false, false, false⟩]⟩])]⟩
        ⟨some ⟨"ann", "s1", "g"⟩, true⟩ .netError =
      .ok ⟨(toggleReadyClients "g" "s1"
              [(0, [⟨"g", false, [⟨"ann", "s1", "", true, false, false, false⟩]⟩])]).1⟩
        [.status ⟨"ann", "s1", "g"⟩
          ((toggleReadyClients "g" "s1"
              [(0, [⟨"g", false, [⟨"ann", "s1", "", true, false, false, false⟩]⟩])]).2.getD true)] f :=
  ⟨(getText_failure_aborts
      ⟨[(0, [⟨"g", false, [⟨"ann", "s1", "", true, false, false, false⟩]⟩])]⟩
      ⟨some ⟨"ann", "s1", "g"⟩, true⟩ ⟨"ann", "s1", "g"⟩ .netError rfl (Or.inl rfl)).1,
   (getText_failure_aborts
      ⟨[(0, [⟨"g", false, [⟨"ann", "s1", "", true, false, false, false⟩]⟩])]⟩
      ⟨some ⟨"ann", "s1", "g"⟩, true⟩ ⟨"ann", "s1", "g"⟩ .netError rfl (Or.inl rfl)).2.1⟩

/-- C9: a `Status` event whose game code matches zero users makes the
all-ready condition hold vacuously (0 = 0): the prompt fetch runs
(`textFetched = true`) and, when the fetch succeeds, a `Start` broadcast
for the empty room is emitted. -/
theorem handleStatus_empty_room (s : ServerState) (m : ReadyMsg) (u : UserMsg) (fetch : HttpOutcome)
    (hu : m.user = some u) (h0 : ClientsInRoom s u.gameId = 0) :
    ∃ s' out, handleStatus s m fetch = .ok s' out true ∧
      ∀ t, GetText fetch = .ok t → OutMsg.start u.gameId t ∈ out := by
  have hmem : ClientsInRoom ⟨(toggleReadyClients u.gameId u.sessionId s.clients).1⟩ u.gameId = 0 := by
    rw [(toggleReadyClients_shape u.gameId u.sessionId s.clients).2.2 u.gameId]
    exact h0
  have hready : clientsReady ⟨(toggleReadyClients u.gameId u.sessionId s.clients).1⟩ u.gameId = 0 :=
    Nat.le_zero.mp (hmem ▸ clientsReady_le_ClientsInRoom _ u.gameId)
  have hcond : clientsReady ⟨(toggleReadyClients u.gameId u.sessionId s.clients).1⟩ u.gameId
      = ClientsInRoom ⟨(toggleReadyClients u.gameId u.sessionId s.clients).1⟩ u.gameId := by
    rw [hmem, hready]
  cases hfetch : GetText fetch with
  | error e =>
      refine ⟨⟨(toggleReadyClients u.gameId u.sessionId s.clients).1⟩,
        [.status u ((toggleReadyClients u.gameId u.sessionId s.clients).2.getD m.status)], ?_, ?_⟩
      · simp [handleStatus, hu, hcond, hfetch]
      · intro t ht
        simp at ht
  | ok t =>
      refine ⟨resetAfterStart
          (markInGame ⟨(toggleReadyClients u.gameId u.sessionId s.clients).1⟩ u.gameId) u.gameId,
        [.status u ((toggleReadyClients u.gameId u.sessionId s.clients).2.getD m.status),
         .start u.gameId t,
         .status u (if anyMatchingNonempty
             (markInGame ⟨(toggleReadyClients u.gameId u.sessionId s.clients).1⟩ u.gameId) u.gameId
           then false
           else (toggleReadyClients u.gameId u.sessionId s.clients).2.getD m.status)], ?_, ?_⟩
      · simp [handleStatus, hu, hcond, hfetch]
      · intro t' ht'
        injection ht' with h
        subst h
        simp

/-- Witness for C9: a registry whose only replica belongs to another game
code; a status event for game `"g"` still fetches the text and broadcasts
`Start` to the empty room. -/
theorem handleStatus_empty_room_witness :
    ∃ s' out, handleStatus
        ⟨[(0, [⟨"other", false, [⟨"bob", "s9", "", false, false, false, false⟩]⟩])]⟩
        ⟨some ⟨"ann", "s1", "g"⟩, true⟩ (.response 200 (some ⟨"prompt"⟩)) = .ok s' out true ∧
      ∀ t, GetText (.response 200 (some ⟨"prompt"⟩)) = .ok t → OutMsg.start "g" t ∈ out :=
  handleStatus_empty_room
    ⟨[(0, [⟨"other", false, [⟨"bob", "s9", "", false, false, false, false⟩]⟩])]⟩
    ⟨some ⟨"ann", "s1", "g"⟩, true⟩ ⟨"ann", "s1", "g"⟩ (.response 200 (some ⟨"prompt"⟩))
    rfl (by decide)

/-! ### Generic facts about registry-wide room maps -/

lemma forall_rooms_mapRooms {P : Room → Prop} {f : Room → Room} (s : ServerState)
    (hf : ∀ r, P (f r)) :
    ∀ cr ∈ (mapRooms f s).clients, ∀ r ∈ cr.2, P r := by
  intro cr hcr r hr
  obtain ⟨cr₀, _, rfl⟩ := List.mem_map.mp hcr
  obtain ⟨r₀, _, rfl⟩ := List.mem_map.mp hr
  exact hf r₀

lemma forall_rooms_mapRooms_pres {P Q : Room → Prop} {f : Room → Room} {s : ServerState}
    (hf : ∀ r, P r → Q (f r))
    (h : ∀ cr ∈ s.clients, ∀ r ∈ cr.2, P r) :
    ∀ cr ∈ (mapRooms f s).clients, ∀ r ∈ cr.2, Q r := by
  intro cr hcr r hr
  obtain ⟨cr₀, hcr₀, rfl⟩ := List.mem_map.mp hcr
  obtain ⟨r₀, hr₀, rfl⟩ := List.mem_map.mp hr
  exact hf r₀ (h cr₀ hcr₀ r₀ hr₀)

lemma startedView_mapRooms {f : Room → Room}
    (hf : ∀ r, (f r).gameID = r.gameID ∧ (f r).started = r.started) (s : ServerState) :
    startedView (mapRooms f s) = startedView s := by
  unfold startedView mapRooms
  simp only [List.map_map]
  have hfun : ((fun cr : Nat × List Room => (cr.1, cr.2.map (fun r => (r.gameID, r.started)))) ∘
      (fun cr : Nat × List Room => (cr.1, cr.2.map f))) =
      (fun cr : Nat × List Room => (cr.1, cr.2.map (fun r => (r.gameID, r.started)))) := by
    funext cr
    simp only [Function.comp_apply, List.map_map]
    congr 1
    apply List.map_congr_left
    intro r _
    show ((f r).gameID, (f r).started) = (r.gameID, r.started)
    rw [(hf r).1, (hf r).2]
  rw [hfun]

lemma turnView_mapRooms {f : Room → Room}
    (hf : ∀ r, (f r).gameID = r.gameID ∧
      (f r).users.map (fun x => x.turn) = r.users.map (fun x => x.turn)) (s : ServerState) :
    turnView (mapRooms f s) = turnView s := by
  unfold turnView mapRooms
  simp only [List.map_map]
  have hfun : ((fun cr : Nat × List Room =>
      (cr.1, cr.2.map (fun r => (r.gameID, r.users.map (fun x => x.turn))))) ∘
      (fun cr : Nat × List Room => (cr.1, cr.2.map f))) =
      (fun cr : Nat × List Room =>
        (cr.1, cr.2.map (fun r => (r.gameID, r.users.map (fun x => x.turn))))) := by
    funext cr
    simp only [Function.comp_apply, List.map_map]
    congr 1
    apply List.map_congr_left
    intro r _
    show ((f r).gameID, (f r).users.map (fun x => x.turn)) =
      (r.gameID, r.users.map (fun x => x.turn))
    rw [(hf r).1, (hf r).2]
  rw [hfun]

/-! ### Facts about the `handleAction` clearing loop -/

lemma clearRoomAfterDelete_flags (gid : String) (r : Room) :
    (clearRoomAfterDelete gid r).gameID = r.gameID ∧
    (clearRoomAfterDelete gid r).users.map (fun x => x.turn) = r.users.map (fun x => x.turn) ∧
    ((clearRoomAfterDelete gid r).gameID = gid →
      (∀ x ∈ (clearRoomAfterDelete gid r).users, x.voted = false) ∧
      ((clearRoomAfterDelete gid r).users ≠ [] → (clearRoomAfterDelete gid r).started = false)) := by
  unfold clearRoomAfterDelete
  by_cases hg : r.gameID = gid
  · by_cases he : r.users.isEmpty
    · have hnil : r.users = [] := List.isEmpty_iff.mp he
      simp [hg, he, hnil]
    · simp only [hg, if_true, he, if_false]
      refine ⟨rfl, by simp [List.map_map, Function.comp], fun _ => ⟨?_, fun _ => rfl⟩⟩
      intro x hx
      obtain ⟨x₀, _, rfl⟩ := List.mem_map.mp hx
      rfl
  · simp [hg]

lemma clearAfterDelete_turnView (s : ServerState) (gid : String) :
    turnView (clearAfterDelete s gid) = turnView s :=
  turnView_mapRooms
    (fun r => ⟨(clearRoomAfterDelete_flags gid r).1, (clearRoomAfterDelete_flags gid r).2.1⟩) s

lemma clearAfterDelete_cleared (s : ServerState) (gid : String) :
    ∀ cr ∈ (clearAfterDelete s gid).clients, ∀ r ∈ cr.2, r.gameID = gid →
      (∀ x ∈ r.users, x.voted = false) ∧ (r.users ≠ [] → r.started = false) :=
  forall_rooms_mapRooms s (fun r => (clearRoomAfterDelete_flags gid r).2.2)

/-- Concrete two-member `RoundActive` room used to refute C1 as stated:
alice has already acted (`turn = true`), bob has not; both are in game and
have voted. -/
def c1State : ServerState :=
  ⟨[(0, [⟨"g", true,
      [⟨"alice", "a", "", false, true, true, true⟩,
       ⟨"bob", "b", "", false, false, true, true⟩]⟩])]⟩

/-- Bob's Action event, the one that completes the round. -/
def c1Action : ActionMsg := ⟨some ⟨"bob", "b", "g"⟩⟩

/-- C1 counterexample: bob's Action makes the turn count (2) equal the
in-game count (2), so `DeleteCards` is broadcast, `voted` is cleared and
`started` drops to false — but both users keep `turn = true`: the claimed
reset of `turn` does not happen. -/
theorem handleAction_allmoved_cex :
    handleAction c1State c1Action =
      .ok ⟨[(0, [⟨"g", false,
        [⟨"alice", "a", "", false, true, false, true⟩,
         ⟨"bob", "b", "", false, true, false, true⟩]⟩])]⟩
        [.action ⟨"bob", "b", "g"⟩, .deleteCards "g"] false ∧
    ¬ (∀ cr ∈ (ServerState.mk [(0, [⟨"g", false,
        [⟨"alice", "a", "", false, true, false, true⟩,
         ⟨"bob", "b", "", false, true, false, true⟩]⟩])]).clients,
        ∀ r ∈ cr.2, r.gameID = "g" → ∀ x ∈ r.users, x.turn = false) := by
  constructor
  · decide
  · decide

/-- C1 amended: when an Action completes the turn count (the acting user
had not yet acted and afterwards `clientsMoved = ClientsInGame`), exactly
one `DeleteCards` broadcast is emitted (after exactly one Action
rebroadcast), every user of every matching replica has `voted` reset to
false, every nonempty matching replica has `started` set to false, and all
`turn` flags are left unchanged. -/
theorem handleAction_allmoved_amended (s : ServerState) (a : ActionMsg) (u : UserMsg)
    (hu : a.user = some u)
    (hfresh : (markTurnClients u.gameId u.sessionId s.clients).2 = false)
    (hcond : clientsMoved ⟨(markTurnClients u.gameId u.sessionId s.clients).1⟩ u.gameId
      = ClientsInGame ⟨(markTurnClients u.gameId u.sessionId s.clients).1⟩ u.gameId) :
    handleAction s a =
      .ok (clearAfterDelete ⟨(markTurnClients u.gameId u.sessionId s.clients).1⟩ u.gameId)
        [.action u, .deleteCards u.gameId] false ∧
    (∀ cr ∈ (clearAfterDelete ⟨(markTurnClients u.gameId u.sessionId s.clients).1⟩
        u.gameId).clients, ∀ r ∈ cr.2, r.gameID = u.gameId →
      (∀ x ∈ r.users, x.voted = false) ∧ (r.users ≠ [] → r.started = false)) ∧
    turnView (clearAfterDelete ⟨(markTurnClients u.gameId u.sessionId s.clients).1⟩ u.gameId)
      = turnView ⟨(markTurnClients u.gameId u.sessionId s.clients).1⟩ := by
  refine ⟨?_, clearAfterDelete_cleared _ u.gameId, clearAfterDelete_turnView _ u.gameId⟩
  simp [handleAction, hu, hfresh, hcond]

/-- Witness for C1's amended theorem at the concrete two-member room. -/
theorem handleAction_allmoved_amended_witness :
    handleAction c1State c1Action =
      .ok (clearAfterDelete ⟨(markTurnClients "g" "b" c1State.clients).1⟩ "g")
        [.action ⟨"bob", "b", "g"⟩, .deleteCards "g"] false ∧
    (∀ cr ∈ (clearAfterDelete ⟨(markTurnClients "g" "b" c1State.clients).1⟩ "g").clients,
      ∀ r ∈ cr.2, r.gameID = "g" →
      (∀ x ∈ r.users, x.voted = false) ∧ (r.users ≠ [] → r.started = false)) ∧
    turnView (clearAfterDelete ⟨(markTurnClients "g" "b" c1State.clients).1⟩ "g")
      = turnView ⟨(markTurnClients "g" "b" c1State.clients).1⟩ :=
  handleAction_allmoved_amended c1State c1Action ⟨"bob", "b", "g"⟩ rfl (by decide) (by decide)

/-! ### Facts about the disconnect-path transitions (`updateGame`) -/

lemma clearTurnVotedRoom_flags (gid : String) (r : Room) :
    (clearTurnVotedRoom gid r).gameID = r.gameID ∧
    (clearTurnVotedRoom gid r).started = r.started ∧
    ((clearTurnVotedRoom gid r).gameID = gid →
      ∀ x ∈ (clearTurnVotedRoom gid r).users, x.turn = false ∧ x.voted = false) := by
  unfold clearTurnVotedRoom
  by_cases hg : r.gameID = gid
  · rw [if_pos hg]
    refine ⟨rfl, rfl, fun _ x hx => ?_⟩
    obtain ⟨x₀, _, rfl⟩ := List.mem_map.mp hx
    exact ⟨rfl, rfl⟩
  · rw [if_neg hg]
    exact ⟨rfl, rfl, fun h => absurd h hg⟩

lemma markInGameRoom_flags (gid : String) (r : Room) :
    (markInGameRoom gid r).gameID = r.gameID ∧
    (markInGameRoom gid r).started = r.started ∧
    (markInGameRoom gid r).users.map (fun x => x.turn) = r.users.map (fun x => x.turn) ∧
    ((markInGameRoom gid r).gameID = gid → ∀ x ∈ (markInGameRoom gid r).users, x.inGame = true) ∧
    (∀ x ∈ (markInGameRoom gid r).users, ∃ x₀ ∈ r.users,
      x.turn = x₀.turn ∧ x.voted = x₀.voted ∧ x.ready = x₀.ready) := by
  unfold markInGameRoom
  by_cases hg : r.gameID = gid
  · rw [if_pos hg]
    refine ⟨rfl, rfl, by simp [List.map_map, Function.comp], fun _ x hx => ?_, fun x hx => ?_⟩
    · obtain ⟨x₀, _, rfl⟩ := List.mem_map.mp hx
      rfl
    · obtain ⟨x₀, hx₀, rfl⟩ := List.mem_map.mp hx
      exact ⟨x₀, hx₀, rfl, rfl, rfl⟩
  · rw [if_neg hg]
    exact ⟨rfl, rfl, rfl, fun h => absurd h hg, fun x hx => ⟨x, hx, rfl, rfl, rfl⟩⟩

lemma resetReadyRoom_flags (gid : String) (r : Room) :
    (resetReadyRoom gid r).gameID = r.gameID ∧
    (resetReadyRoom gid r).started = r.started ∧
    (resetReadyRoom gid r).users.map (fun x => x.turn) = r.users.map (fun x => x.turn) ∧
    ((resetReadyRoom gid r).gameID = gid → ∀ x ∈ (resetReadyRoom gid r).users, x.ready = false) ∧
    (∀ x ∈ (resetReadyRoom gid r).users, ∃ x₀ ∈ r.users,
      x.turn = x₀.turn ∧ x.voted = x₀.voted ∧ x.inGame = x₀.inGame) := by
  unfold resetReadyRoom
  by_cases hg : r.gameID = gid
  · rw [if_pos hg]
    refine ⟨rfl, rfl, by simp [List.map_map, Function.comp], fun _ x hx => ?_, fun x hx => ?_⟩
    · obtain ⟨x₀, _, rfl⟩ := List.mem_map.mp hx
      rfl
    · obtain ⟨x₀, hx₀, rfl⟩ := List.mem_map.mp hx
      exact ⟨x₀, hx₀, rfl, rfl, rfl⟩
  · rw [if_neg hg]
    exact ⟨rfl, rfl, rfl, fun h => absurd h hg, fun x hx => ⟨x, hx, rfl, rfl, rfl⟩⟩

/-- The turn/voted clearing property established by `clearTurnVoted`. -/
lemma clearTurnVoted_clears (s : ServerState) (gid : String) :
    ∀ cr ∈ (clearTurnVoted s gid).clients, ∀ r ∈ cr.2, r.gameID = gid →
      ∀ x ∈ r.users, x.turn = false ∧ x.voted = false :=
  forall_rooms_mapRooms s (fun r => (clearTurnVotedRoom_flags gid r).2.2)

lemma markInGame_pres_cleared {s : ServerState} {gid : String}
    (h : ∀ cr ∈ s.clients, ∀ r ∈ cr.2, r.gameID = gid →
      ∀ x ∈ r.users, x.turn = false ∧ x.voted = false) :
    ∀ cr ∈ (markInGame s gid).clients, ∀ r ∈ cr.2, r.gameID = gid →
      ∀ x ∈ r.users, x.turn = false ∧ x.voted = false := by
  refine forall_rooms_mapRooms_pres (fun r hr hg x hx => ?_) h
  obtain ⟨hgame, _, _, _, husers⟩ := markInGameRoom_flags gid r
  obtain ⟨x₀, hx₀, ht, hv, _⟩ := husers x hx
  obtain ⟨h1, h2⟩ := hr (hgame ▸ hg) x₀ hx₀
  exact ⟨ht.trans h1, hv.trans h2⟩

lemma resetReady_pres_cleared {s : ServerState} {gid : String}
    (h : ∀ cr ∈ s.clients, ∀ r ∈ cr.2, r.gameID = gid →
      ∀ x ∈ r.users, x.turn = false ∧ x.voted = false) :
    ∀ cr ∈ (resetReady s gid).clients, ∀ r ∈ cr.2, r.gameID = gid →
      ∀ x ∈ r.users, x.turn = false ∧ x.voted = false := by
  refine forall_rooms_mapRooms_pres (fun r hr hg x hx => ?_) h
  obtain ⟨hgame, _, _, _, husers⟩ := resetReadyRoom_flags gid r
  obtain ⟨x₀, hx₀, ht, hv, _⟩ := husers x hx
  obtain ⟨h1, h2⟩ := hr (hgame ▸ hg) x₀ hx₀
  exact ⟨ht.trans h1, hv.trans h2⟩

/-- All users of matching rooms are `InGame` after `markInGame`. -/
lemma markInGame_marks (s : ServerState) (gid : String) :
    ∀ cr ∈ (markInGame s gid).clients, ∀ r ∈ cr.2, r.gameID = gid →
      ∀ x ∈ r.users, x.inGame = true :=
  forall_rooms_mapRooms s (fun r => (markInGameRoom_flags gid r).2.2.2.1)

/-- After `resetReady` on a state where matching users are `InGame`,
matching users have `ready = false` and are still `InGame`. -/
lemma resetReady_resets {s : ServerState} {gid : String}
    (h : ∀ cr ∈ s.clients, ∀ r ∈ cr.2, r.gameID = gid → ∀ x ∈ r.users, x.inGame = true) :
    ∀ cr ∈ (resetReady s gid).clients, ∀ r ∈ cr.2, r.gameID = gid →
      ∀ x ∈ r.users, x.ready = false ∧ x.inGame = true := by
  refine forall_rooms_mapRooms_pres (fun r hr hg x hx => ?_) h
  obtain ⟨hgame, _, _, hready, husers⟩ := resetReadyRoom_flags gid r
  obtain ⟨x₀, hx₀, _, _, hi⟩ := husers x hx
  exact ⟨hready hg x hx, hi.trans (hr (hgame ▸ hg) x₀ hx₀)⟩

lemma clearTurnVoted_startedView (s : ServerState) (gid : String) :
    startedView (clearTurnVoted s gid) = startedView s :=
  startedView_mapRooms
    (fun r => ⟨(clearTurnVotedRoom_flags gid r).1, (clearTurnVotedRoom_flags gid r).2.1⟩) s

lemma markInGame_startedView (s : ServerState) (gid : String) :
    startedView (markInGame s gid) = startedView s :=
  startedView_mapRooms
    (fun r => ⟨(markInGameRoom_flags gid r).1, (markInGameRoom_flags gid r).2.1⟩) s

lemma resetReady_startedView (s : ServerState) (gid : String) :
    startedView (resetReady s gid) = startedView s :=
  startedView_mapRooms
    (fun r => ⟨(resetReadyRoom_flags gid r).1, (resetReadyRoom_flags gid r).2.1⟩) s

lemma markInGame_turnView (s : ServerState) (gid : String) :
    turnView (markInGame s gid) = turnView s :=
  turnView_mapRooms
    (fun r => ⟨(markInGameRoom_flags gid r).1, (markInGameRoom_flags gid r).2.2.1⟩) s

lemma resetReady_turnView (s : ServerState) (gid : String) :
    turnView (resetReady s gid) = turnView s :=
  turnView_mapRooms
    (fun r => ⟨(resetReadyRoom_flags gid r).1, (resetReadyRoom_flags gid r).2.2.1⟩) s

lemma updateGameDeleteStep_startedView (s : ServerState) (gid : String) :
    startedView (updateGameDeleteStep s gid).1 = startedView s := by
  unfold updateGameDeleteStep
  by_cases hd : ClientsInGame s gid = clientsMoved s gid
  · rw [if_pos hd]
    exact clearTurnVoted_startedView s gid
  · rw [if_neg hd]

/-- The behaviour of `updateGame` on each of its branches. -/
lemma updateGame_props (s : ServerState) (gid : String) (fetch : HttpOutcome) :
    startedView (updateGame s gid fetch).1 = startedView s ∧
    (ClientsInGame s gid = clientsMoved s gid →
      OutMsg.deleteCards gid ∈ (updateGame s gid fetch).2.1 ∧
      ∀ cr ∈ (updateGame s gid fetch).1.clients, ∀ r ∈ cr.2, r.gameID = gid →
        ∀ x ∈ r.users, x.turn = false ∧ x.voted = false) ∧
    (∀ t, GetText fetch = Except.ok t →
      ClientsInRoom (updateGameDeleteStep s gid).1 gid
        = clientsReady (updateGameDeleteStep s gid).1 gid →
      OutMsg.start gid t ∈ (updateGame s gid fetch).2.1 ∧
      (∀ cr ∈ (updateGame s gid fetch).1.clients, ∀ r ∈ cr.2, r.gameID = gid →
        ∀ x ∈ r.users, x.ready = false ∧ x.inGame = true) ∧
      turnView (updateGame s gid fetch).1 = turnView (updateGameDeleteStep s gid).1) := by
  have hug : updateGame s gid fetch =
      (if ClientsInRoom (updateGameDeleteStep s gid).1 gid
          = clientsReady (updateGameDeleteStep s gid).1 gid then
        match GetText fetch with
        | .error _ => ((updateGameDeleteStep s gid).1, (updateGameDeleteStep s gid).2, true)
        | .ok text =>
            (resetReady (markInGame (updateGameDeleteStep s gid).1 gid) gid,
             (updateGameDeleteStep s gid).2 ++ [OutMsg.start gid text]
               ++ userStatusMsgs (markInGame (updateGameDeleteStep s gid).1 gid) gid,
             true)
      else ((updateGameDeleteStep s gid).1, (updateGameDeleteStep s gid).2, false)) := rfl
  have hstep2 : ∀ (hd : ClientsInGame s gid = clientsMoved s gid),
      updateGameDeleteStep s gid = (clearTurnVoted s gid, [OutMsg.deleteCards gid]) := by
    intro hd
    unfold updateGameDeleteStep
    rw [if_pos hd]
  by_cases hr : ClientsInRoom (updateGameDeleteStep s gid).1 gid
      = clientsReady (updateGameDeleteStep s gid).1 gid
  · cases hf : GetText fetch with
    | error e =>
        have hval : updateGame s gid fetch =
            ((updateGameDeleteStep s gid).1, (updateGameDeleteStep s gid).2, true) := by
          rw [hug, if_pos hr, hf]
        rw [hval]
        refine ⟨updateGameDeleteStep_startedView s gid, fun hd => ?_, fun t ht _ => ?_⟩
        · rw [hstep2 hd]
          exact ⟨List.mem_singleton.mpr rfl, clearTurnVoted_clears s gid⟩
        · exact Except.noConfusion ht
    | ok t =>
        have hval : updateGame s gid fetch =
            (resetReady (markInGame (updateGameDeleteStep s gid).1 gid) gid,
             (updateGameDeleteStep s gid).2 ++ [OutMsg.start gid t]
               ++ userStatusMsgs (markInGame (updateGameDeleteStep s gid).1 gid) gid,
             true) := by
          rw [hug, if_pos hr, hf]
        rw [hval]
        refine ⟨?_, fun hd => ?_, fun t' ht' _ => ?_⟩
        · rw [resetReady_startedView, markInGame_startedView]
          exact updateGameDeleteStep_startedView s gid
        · constructor
          · rw [hstep2 hd]
            simp
          · refine resetReady_pres_cleared (markInGame_pres_cleared ?_)
            rw [hstep2 hd]
            exact clearTurnVoted_clears s gid
        · have hteq : t = t' := by injection ht'
          subst hteq
          refine ⟨by simp, resetReady_resets (markInGame_marks _ gid), ?_⟩
          rw [resetReady_turnView, markInGame_turnView]
  · have hval : updateGame s gid fetch =
        ((updateGameDeleteStep s gid).1, (updateGameDeleteStep s gid).2, false) := by
      rw [hug, if_neg hr]
    rw [hval]
    refine ⟨updateGameDeleteStep_startedView s gid, fun hd => ?_, fun t ht hr' => absurd hr' hr⟩
    rw [hstep2 hd]
    exact ⟨List.mem_singleton.mpr rfl, clearTurnVoted_clears s gid⟩

/-- C3 amended: a Disconnect removes the user and re-evaluates both
aggregates, but the transitions differ from the Action/Status paths: the
all-moved branch broadcasts `DeleteCards` and clears `turn` and `voted` yet
leaves every `started` flag unchanged; the all-ready branch broadcasts
`Start` and clears `ready` (marking members in-game) yet leaves every
`turn` flag and every `started` flag unchanged — `started` is never set to
false or to true on this path. -/
theorem handleDisconnect_amended (s : ServerState) (m : DisconnectMsg) (u : UserMsg)
    (fetch : HttpOutcome) (hu : m.user = some u) :
    handleDisconnect s m fetch =
      .ok (updateGame ⟨disconnectUser u.sessionId s.clients⟩ u.gameId fetch).1
        (OutMsg.userInfo u false ::
          (updateGame ⟨disconnectUser u.sessionId s.clients⟩ u.gameId fetch).2.1)
        (updateGame ⟨disconnectUser u.sessionId s.clients⟩ u.gameId fetch).2.2 ∧
    startedView (updateGame ⟨disconnectUser u.sessionId s.clients⟩ u.gameId fetch).1
      = startedView ⟨disconnectUser u.sessionId s.clients⟩ ∧
    (ClientsInGame ⟨disconnectUser u.sessionId s.clients⟩ u.gameId
        = clientsMoved ⟨disconnectUser u.sessionId s.clients⟩ u.gameId →
      OutMsg.deleteCards u.gameId
          ∈ (updateGame ⟨disconnectUser u.sessionId s.clients⟩ u.gameId fetch).2.1 ∧
      ∀ cr ∈ (updateGame ⟨disconnectUser u.sessionId s.clients⟩ u.gameId fetch).1.clients,
        ∀ r ∈ cr.2, r.gameID = u.gameId → ∀ x ∈ r.users, x.turn = false ∧ x.voted = false) ∧
    (∀ t, GetText fetch = Except.ok t →
      ClientsInRoom (updateGameDeleteStep ⟨disconnectUser u.sessionId s.clients⟩ u.gameId).1 u.gameId
        = clientsReady (updateGameDeleteStep ⟨disconnectUser u.sessionId s.clients⟩ u.gameId).1 u.gameId →
      OutMsg.start u.gameId t
          ∈ (updateGame ⟨disconnectUser u.sessionId s.clients⟩ u.gameId fetch).2.1 ∧
      (∀ cr ∈ (updateGame ⟨disconnectUser u.sessionId s.clients⟩ u.gameId fetch).1.clients,
        ∀ r ∈ cr.2, r.gameID = u.gameId → ∀ x ∈ r.users, x.ready = false ∧ x.inGame = true) ∧
      turnView (updateGame ⟨disconnectUser u.sessionId s.clients⟩ u.gameId fetch).1
        = turnView (updateGameDeleteStep ⟨disconnectUser u.sessionId s.clients⟩ u.gameId).1) := by
  obtain ⟨h1, h2, h3⟩ := updateGame_props ⟨disconnectUser u.sessionId s.clients⟩ u.gameId fetch
  exact ⟨by simp [handleDisconnect, hu], h1, h2, h3⟩

/-- Concrete room used to refute C3 as stated: alice is ready and in game,
bob is neither; bob disconnects, which makes ready count = member count. -/
def c3State : ServerState :=
  ⟨[(0, [⟨"g", false,
      [⟨"alice", "a", "", true, false, false, true⟩,
       ⟨"bob", "b", "", false, false, false, false⟩]⟩])]⟩

/-- C3 counterexample: bob's disconnect triggers the all-ready transition
(`Start` is broadcast with the fetched prompt) but, contrary to the claim,
`started` is not set to true — the replica keeps `started = false` (and no
`ready`/`turn` reset comparable to the Status path happens beyond
`ready = false`). -/
theorem handleDisconnect_cex :
    handleDisconnect c3State ⟨some ⟨"bob", "b", "g"⟩⟩ (.response 200 (some ⟨"prompt"⟩)) =
      .ok ⟨[(0, [⟨"g", false, [⟨"alice", "a", "", false, false, false, true⟩]⟩])]⟩
        [.userInfo ⟨"bob", "b", "g"⟩ false, .start "g" "prompt", .status ⟨"", "a", ""⟩ false]
        true ∧
    ¬ (∀ cr ∈ (ServerState.mk
          [(0, [⟨"g", false, [⟨"alice", "a", "", false, false, false, true⟩]⟩])]).clients,
        ∀ r ∈ cr.2, r.gameID = "g" → r.started = true) := by
  constructor
  · decide
  · decide

/-- Witness for C3's amended theorem: on the concrete disconnect that fires
the all-ready transition, every `started` flag is unchanged. -/
theorem handleDisconnect_amended_witness :
    startedView (updateGame ⟨disconnectUser "b" c3State.clients⟩ "g"
        (.response 200 (some ⟨"prompt"⟩))).1
      = startedView ⟨disconnectUser "b" c3State.clients⟩ :=
  (handleDisconnect_amended c3State ⟨some ⟨"bob", "b", "g"⟩⟩ ⟨"bob", "b", "g"⟩
    (.response 200 (some ⟨"prompt"⟩)) rfl).2.1

/-! ### Idempotence of the Action turn-marking -/

/-- A replica of the game code containing the session id. -/
def roomHasUser (gid sid : String) (r : Room) : Bool :=
  r.gameID = gid && r.users.any (fun x => x.sessionID = sid)

/-- A replica of the game code containing the session id with `turn` set. -/
def roomTurned (gid sid : String) (r : Room) : Bool :=
  r.gameID = gid && r.users.any (fun x => x.sessionID = sid && x.turn)

/-- Some replica of the game code contains the session id. -/
def hasUser (s : ServerState) (gid sid : String) : Bool :=
  s.clients.any (fun cr => cr.2.any (roomHasUser gid sid))

/-- Some replica of the game code contains the session id with `turn` set. -/
def hasTurnedUser (s : ServerState) (gid sid : String) : Bool :=
  s.clients.any (fun cr => cr.2.any (roomTurned gid sid))

lemma markTurnUsers_snd_false (sid : String) :
    ∀ us : List User, (∀ x ∈ us, x.sessionID = sid → x.turn = false) →
      (markTurnUsers sid us).2 = false
  | [] => fun _ => rfl
  | u :: rest => by
      intro h
      unfold markTurnUsers
      by_cases hs : u.sessionID = sid
      · have ht := h u (List.mem_cons_self _ _) hs
        simp [hs, ht]
      · simp only [hs, if_false]
        exact markTurnUsers_snd_false sid rest (fun x hx => h x (List.mem_cons_of_mem _ hx))

lemma markTurnUsers_isEmpty (sid : String) :
    ∀ us : List User, (markTurnUsers sid us).1.isEmpty = us.isEmpty
  | [] => rfl
  | u :: rest => by
      unfold markTurnUsers
      by_cases hs : u.sessionID = sid
      · by_cases ht : u.turn <;> simp [hs, ht]
      · simp [hs]

lemma markTurnUsers_idem (sid : String) :
    ∀ us : List User,
      markTurnUsers sid (markTurnUsers sid us).1 =
        ((markTurnUsers sid us).1, us.any (fun x => x.sessionID = sid))
  | [] => rfl
  | u :: rest => by
      by_cases hs : u.sessionID = sid
      · by_cases ht : u.turn
        · simp [markTurnUsers, hs, ht]
        · simp [markTurnUsers, hs, ht]
      · simp [markTurnUsers, hs, markTurnUsers_idem sid rest]

lemma markTurnUsers_map_votedFalse (sid : String) :
    ∀ us : List User,
      markTurnUsers sid (us.map (fun x => { x with voted := false })) =
        ((markTurnUsers sid us).1.map (fun x => { x with voted := false }),
         (markTurnUsers sid us).2)
  | [] => rfl
  | u :: rest => by
      by_cases hs : u.sessionID = sid
      · by_cases ht : u.turn <;> simp [markTurnUsers, hs, ht]
      · simp [markTurnUsers, hs, markTurnUsers_map_votedFalse sid rest]

lemma markTurnUsers_marks (sid : String) :
    ∀ us : List User, (∃ x ∈ us, x.sessionID = sid) →
      (markTurnUsers sid us).1.any (fun x => x.sessionID = sid && x.turn) = true
  | [] => by
      rintro ⟨x, hx, _⟩
      cases hx
  | u :: rest => by
      rintro ⟨x, hx, hxs⟩
      by_cases hs : u.sessionID = sid
      · by_cases ht : u.turn <;> simp [markTurnUsers, hs, ht]
      · have hmem : ∃ x ∈ rest, x.sessionID = sid := by
          rcases List.mem_cons.mp hx with rfl | hxm
          · exact absurd hxs hs
          · exact ⟨x, hxm, hxs⟩
        simp [markTurnUsers, hs, markTurnUsers_marks sid rest hmem]

lemma markTurnRoom_snd_false (gid sid : String) (r : Room)
    (h : r.gameID = gid → ∀ x ∈ r.users, x.sessionID = sid → x.turn = false) :
    (markTurnRoom gid sid r).2 = false := by
  unfold markTurnRoom
  by_cases hg : r.gameID = gid
  · rw [if_pos hg]
    exact markTurnUsers_snd_false sid r.users (h hg)
  · rw [if_neg hg]

lemma markTurnRoom_idem (gid sid : String) (r : Room) :
    markTurnRoom gid sid (markTurnRoom gid sid r).1 =
      ((markTurnRoom gid sid r).1, roomHasUser gid sid r) := by
  unfold markTurnRoom roomHasUser
  by_cases hg : r.gameID = gid
  · simp [hg, markTurnUsers_idem]
  · simp [hg]

lemma markTurnRoom_clear_idem (gid sid : String) (r : Room) :
    markTurnRoom gid sid (clearRoomAfterDelete gid (markTurnRoom gid sid r).1) =
      (clearRoomAfterDelete gid (markTurnRoom gid sid r).1, roomHasUser gid sid r) := by
  by_cases hg : r.gameID = gid
  · by_cases he : r.users.isEmpty
    · have hne : (markTurnUsers sid r.users).1.isEmpty = true := by
        rw [markTurnUsers_isEmpty]
        exact he
      have hnil : r.users = [] := List.isEmpty_iff.mp he
      simp [markTurnRoom, clearRoomAfterDelete, roomHasUser, hg, hne, hnil, markTurnUsers]
    · have hne : (markTurnUsers sid r.users).1.isEmpty = false := by
        rw [markTurnUsers_isEmpty]
        exact Bool.not_eq_true _ ▸ he
      simp [markTurnRoom, clearRoomAfterDelete, roomHasUser, hg, hne,
        markTurnUsers_map_votedFalse, markTurnUsers_idem]
  · simp [markTurnRoom, clearRoomAfterDelete, roomHasUser, hg]

lemma markTurnRoom_marks (gid sid : String) (r : Room) (h : roomHasUser gid sid r = true) :
    roomTurned gid sid (markTurnRoom gid sid r).1 = true := by
  unfold roomHasUser at h
  obtain ⟨hg, hany⟩ := Bool.and_eq_true_iff.mp h
  have hg' : r.gameID = gid := of_decide_eq_true hg
  have hex : ∃ x ∈ r.users, x.sessionID = sid := by
    obtain ⟨x, hx, hxs⟩ := List.any_eq_true.mp hany
    exact ⟨x, hx, of_decide_eq_true hxs⟩
  unfold markTurnRoom roomTurned
  rw [if_pos hg']
  simp [hg', markTurnUsers_marks sid r.users hex]

lemma clearRoom_pres_turned (gid sid : String) (r : Room) (h : roomTurned gid sid r = true) :
    roomTurned gid sid (clearRoomAfterDelete gid r) = true := by
  unfold roomTurned at h ⊢
  obtain ⟨hg, hany⟩ := Bool.and_eq_true_iff.mp h
  have hg' : r.gameID = gid := of_decide_eq_true hg
  unfold clearRoomAfterDelete
  rw [if_pos hg']
  split
  · exact h
  · refine Bool.and_eq_true_iff.mpr ⟨by simp [hg'], ?_⟩
    simp only [List.any_map]
    have hcomp : ((fun x : User => decide (x.sessionID = sid) && x.turn) ∘
        (fun x => { x with voted := false })) =
        (fun x : User => decide (x.sessionID = sid) && x.turn) := rfl
    rw [hcomp]
    exact hany

lemma markTurnRooms_snd_false (gid sid : String) :
    ∀ rs : List Room,
      (∀ r ∈ rs, r.gameID = gid → ∀ x ∈ r.users, x.sessionID = sid → x.turn = false) →
      (markTurnRooms gid sid rs).2 = false
  | [] => fun _ => rfl
  | r :: rest => by
      intro h
      show ((markTurnRoom gid sid r).2 || (markTurnRooms gid sid rest).2) = false
      rw [markTurnRoom_snd_false gid sid r (h r (List.mem_cons_self _ _)),
        markTurnRooms_snd_false gid sid rest (fun r' hr' => h r' (List.mem_cons_of_mem _ hr'))]
      rfl

lemma markTurnRooms_idem (gid sid : String) :
    ∀ rs : List Room,
      markTurnRooms gid sid (markTurnRooms gid sid rs).1 =
        ((markTurnRooms gid sid rs).1, rs.any (roomHasUser gid sid))
  | [] => rfl
  | r :: rest => by
      show markTurnRooms gid sid ((markTurnRoom gid sid r).1 :: (markTurnRooms gid sid rest).1) = _
      unfold markTurnRooms
      rw [markTurnRoom_idem, markTurnRooms_idem gid sid rest]
      simp [List.any_cons]

lemma markTurnRooms_clear_idem (gid sid : String) :
    ∀ rs : List Room,
      markTurnRooms gid sid ((markTurnRooms gid sid rs).1.map (clearRoomAfterDelete gid)) =
        ((markTurnRooms gid sid rs).1.map (clearRoomAfterDelete gid),
         rs.any (roomHasUser gid sid))
  | [] => rfl
  | r :: rest => by
      show markTurnRooms gid sid
          ((clearRoomAfterDelete gid (markTurnRoom gid sid r).1) ::
            ((markTurnRooms gid sid rest).1.map (clearRoomAfterDelete gid))) = _
      unfold markTurnRooms
      rw [markTurnRoom_clear_idem, markTurnRooms_clear_idem gid sid rest]
      simp [List.any_cons]

lemma markTurnRooms_marks (gid sid : String) :
    ∀ rs : List Room, rs.any (roomHasUser gid sid) = true →
      ((markTurnRooms gid sid rs).1).any (roomTurned gid sid) = true
  | [] => by
      intro h
      simp at h
  | r :: rest => by
      intro h
      show ((markTurnRoom gid sid r).1 :: (markTurnRooms gid sid rest).1).any
        (roomTurned gid sid) = true
      rw [List.any_cons] at h ⊢
      rcases Bool.or_eq_true_iff.mp h with hh | ht
      · exact Bool.or_eq_true_iff.mpr (Or.inl (markTurnRoom_marks gid sid r hh))
      · exact Bool.or_eq_true_iff.mpr (Or.inr (markTurnRooms_marks gid sid rest ht))

lemma clearRooms_pres_turned (gid sid : String) :
    ∀ rs : List Room, rs.any (roomTurned gid sid) = true →
      (rs.map (clearRoomAfterDelete gid)).any (roomTurned gid sid) = true := by
  intro rs h
  rw [List.any_map]
  obtain ⟨r, hr, hrt⟩ := List.any_eq_true.mp h
  exact List.any_eq_true.mpr ⟨r, hr, clearRoom_pres_turned gid sid r hrt⟩

lemma markTurnClients_snd_false (gid sid : String) :
    ∀ cls : List (Nat × List Room),
      (∀ cr ∈ cls, ∀ r ∈ cr.2, r.gameID = gid → ∀ x ∈ r.users, x.sessionID = sid → x.turn = false) →
      (markTurnClients gid sid cls).2 = false
  | [] => fun _ => rfl
  | cr :: rest => by
      intro h
      show ((markTurnRooms gid sid cr.2).2 || (markTurnClients gid sid rest).2) = false
      rw [markTurnRooms_snd_false gid sid cr.2 (h cr (List.mem_cons_self _ _)),
        markTurnClients_snd_false gid sid rest (fun cr' hcr' => h cr' (List.mem_cons_of_mem _ hcr'))]
      rfl

lemma markTurnClients_idem (gid sid : String) :
    ∀ cls : List (Nat × List Room),
      markTurnClients gid sid (markTurnClients gid sid cls).1 =
        ((markTurnClients gid sid cls).1, cls.any (fun cr => cr.2.any (roomHasUser gid sid)))
  | [] => rfl
  | cr :: rest => by
      show markTurnClients gid sid
          ((cr.1, (markTurnRooms gid sid cr.2).1) :: (markTurnClients gid sid rest).1) = _
      unfold markTurnClients
      rw [markTurnClients_idem gid sid rest]
      simp only [markTurnRooms_idem, List.any_cons]

lemma markTurnClients_clear_idem (gid sid : String) :
    ∀ cls : List (Nat × List Room),
      markTurnClients gid sid
          ((markTurnClients gid sid cls).1.map
            (fun cr => (cr.1, cr.2.map (clearRoomAfterDelete gid)))) =
        ((markTurnClients gid sid cls).1.map
            (fun cr => (cr.1, cr.2.map (clearRoomAfterDelete gid))),
         cls.any (fun cr => cr.2.any (roomHasUser gid sid)))
  | [] => rfl
  | cr :: rest => by
      show markTurnClients gid sid
          ((cr.1, (markTurnRooms gid sid cr.2).1.map (clearRoomAfterDelete gid)) ::
            ((markTurnClients gid sid rest).1.map
              (fun cr => (cr.1, cr.2.map (clearRoomAfterDelete gid))))) = _
      unfold markTurnClients
      rw [markTurnClients_clear_idem gid sid rest]
      simp only [markTurnRooms_clear_idem, List.any_cons, List.map_cons]

lemma markTurnClients_marks (gid sid : String) :
    ∀ cls : List (Nat × List Room),
      cls.any (fun cr => cr.2.any (roomHasUser gid sid)) = true →
      ((markTurnClients gid sid cls).1).any (fun cr => cr.2.any (roomTurned gid sid)) = true
  | [] => by
      intro h
      simp at h
  | cr :: rest => by
      intro h
      show (((cr.1, (markTurnRooms gid sid cr.2).1) : Nat × List Room) ::
          (markTurnClients gid sid rest).1).any (fun cr => cr.2.any (roomTurned gid sid)) = true
      rw [List.any_cons] at h ⊢
      rcases Bool.or_eq_true_iff.mp h with hh | ht
      · exact Bool.or_eq_true_iff.mpr (Or.inl (markTurnRooms_marks gid sid cr.2 hh))
      · exact Bool.or_eq_true_iff.mpr (Or.inr (markTurnClients_marks gid sid rest ht))

lemma clearClients_pres_turned (gid sid : String) :
    ∀ cls : List (Nat × List Room),
      cls.any (fun cr => cr.2.any (roomTurned gid sid)) = true →
      (cls.map (fun cr => (cr.1, cr.2.map (clearRoomAfterDelete gid)))).any
        (fun cr => cr.2.any (roomTurned gid sid)) = true := by
  intro cls h
  rw [List.any_map]
  obtain ⟨cr, hcr, hrt⟩ := List.any_eq_true.mp h
  exact List.any_eq_true.mpr ⟨cr, hcr, clearRooms_pres_turned gid sid cr.2 hrt⟩

/-- C4: the Action handler is idempotent per round.  If the session id is
present in some replica of the game code and no copy of it has acted yet,
then the first Action produces exactly one rebroadcast (one `.action`
message, possibly followed by the round-clearing `DeleteCards`), sets the
user's `turn` flag, and a second identical Action changes nothing: same
state, no rebroadcast, no side effects, `turn` still true. -/
theorem handleAction_idempotent (s : ServerState) (a : ActionMsg) (u : UserMsg)
    (hu : a.user = some u)
    (hfound : hasUser s u.gameId u.sessionId = true)
    (hfresh : ∀ cr ∈ s.clients, ∀ r ∈ cr.2, r.gameID = u.gameId →
      ∀ x ∈ r.users, x.sessionID = u.sessionId → x.turn = false) :
    ∃ s1 out1, handleAction s a = .ok s1 out1 false ∧
      (out1 = [.action u] ∨ out1 = [.action u, .deleteCards u.gameId]) ∧
      hasTurnedUser s1 u.gameId u.sessionId = true ∧
      handleAction s1 a = .ok s1 [] false := by
  have hsnd : (markTurnClients u.gameId u.sessionId s.clients).2 = false :=
    markTurnClients_snd_false _ _ s.clients hfresh
  have hany : s.clients.any (fun cr => cr.2.any (roomHasUser u.gameId u.sessionId)) = true :=
    hfound
  by_cases hcond : clientsMoved ⟨(markTurnClients u.gameId u.sessionId s.clients).1⟩ u.gameId
      = ClientsInGame ⟨(markTurnClients u.gameId u.sessionId s.clients).1⟩ u.gameId
  · refine ⟨clearAfterDelete ⟨(markTurnClients u.gameId u.sessionId s.clients).1⟩ u.gameId,
      [.action u, .deleteCards u.gameId], ?_, Or.inr rfl, ?_, ?_⟩
    · simp [handleAction, hu, hsnd, hcond]
    · exact clearClients_pres_turned _ _ _
        (markTurnClients_marks _ _ s.clients hany)
    · simp only [handleAction, hu]
      rw [show (clearAfterDelete ⟨(markTurnClients u.gameId u.sessionId s.clients).1⟩
            u.gameId).clients
          = (markTurnClients u.gameId u.sessionId s.clients).1.map
              (fun cr => (cr.1, cr.2.map (clearRoomAfterDelete u.gameId))) from rfl]
      rw [markTurnClients_clear_idem]
      simp only [hany, if_true]
      rfl
  · refine ⟨⟨(markTurnClients u.gameId u.sessionId s.clients).1⟩, [.action u], ?_,
      Or.inl rfl, ?_, ?_⟩
    · simp [handleAction, hu, hsnd, hcond]
    · exact markTurnClients_marks _ _ s.clients hany
    · simp only [handleAction, hu]
      rw [markTurnClients_idem]
      simp only [hany, if_true]

/-- Concrete one-member lobby used to witness C4. -/
def c4State : ServerState :=
  ⟨[(0, [⟨"g", false, [⟨"carol", "c", "", false, false, false, false⟩]⟩])]⟩

/-- Witness for C4: carol's first Action in the concrete lobby rebroadcasts
once and sets `turn`; the second is a strict no-op. -/
theorem handleAction_idempotent_witness :
    ∃ s1 out1, handleAction c4State ⟨some ⟨"carol", "c", "g"⟩⟩ = .ok s1 out1 false ∧
      (out1 = [.action ⟨"carol", "c", "g"⟩] ∨
        out1 = [.action ⟨"carol", "c", "g"⟩, .deleteCards "g"]) ∧
      hasTurnedUser s1 "g" "c" = true ∧
      handleAction s1 ⟨some ⟨"carol", "c", "g"⟩⟩ = .ok s1 [] false :=
  handleAction_idempotent c4State ⟨some ⟨"carol", "c", "g"⟩⟩ ⟨"carol", "c", "g"⟩
    rfl (by decide) (by decide)

end GoServer

